import Mathlib

/-!
Verification of the capsule-based content router in `src/application.rs`
(crate `jigi`): the capsule data model, the URI-keyed registry, the default
template context builder, the GET/POST dispatchers, the Tera template
loader, and the server startup sequence, shallowly embedded in Lean.
-/

/-- The HTTP methods supported by the application (`enum Method` in
`application.rs`). -/
inductive Method where
  | GET
  | POST
  | PUT
  | DELETE
deriving DecidableEq, Repr

/-- The string produced by Rust's derived `Debug` for `Method`, as used by
`format!("{:?}", capsule.method)` in `context_for`. -/
def Method.debugStr : Method → String
  | .GET => "GET"
  | .POST => "POST"
  | .PUT => "PUT"
  | .DELETE => "DELETE"

/-- A JSON-like value tree, modelling `serde_json::Value`.  Numbers are
modelled as integers; none of the verified routines inspect numeric
values. -/
inductive Json where
  | null
  | bool (b : Bool)
  | num (n : Int)
  | str (s : String)
  | arr (elems : List Json)
  | obj (fields : List (String × Json))

/-- Rust struct `Capsule` from `application.rs`: one routable content unit. -/
structure Capsule where
  template : String
  name : String
  description : String
  uri : String
  method : Method
  data : Json

/-- Constructor `Capsule::new`: all string fields converted into owned strings and
`data` initialised to the empty JSON object. -/
def Capsule.new (name description uri template : String) (method : Method) :
    Capsule :=
  { name := name
    description := description
    uri := uri
    template := template
    method := method
    data := Json.obj [] }

/-- An association list standing for the `HashMap<String, Capsule>` inside
`CapsuleRegistry`.  `HashMap::insert` replaces the value stored under an
existing key and otherwise adds a fresh binding; `insertPair` mirrors
exactly that content-level behaviour. -/
def insertPair (k : String) (v : Capsule) :
    List (String × Capsule) → List (String × Capsule)
  | [] => [(k, v)]
  | (k', v') :: rest =>
      if k' = k then (k, v) :: rest else (k', v') :: insertPair k v rest

/-- Rust struct `CapsuleRegistry` holding `map: HashMap<String, Capsule>`, key = uri. -/
structure CapsuleRegistry where
  map : List (String × Capsule)

/-- Derived `CapsuleRegistry::default()`: the empty registry. -/
def CapsuleRegistry.default : CapsuleRegistry := { map := [] }

/-- Operation `CapsuleRegistry::add`: `self.map.insert(capsule.uri.clone(), capsule)`. -/
def CapsuleRegistry.add (r : CapsuleRegistry) (capsule : Capsule) :
    CapsuleRegistry :=
  { map := insertPair capsule.uri capsule r.map }

/-- Operation `CapsuleRegistry::get`: `self.map.get(uri)`. -/
def CapsuleRegistry.get (r : CapsuleRegistry) (uri : String) : Option Capsule :=
  (r.map.find? (fun p => p.1 = uri)).map (·.2)

/-- Operation `CapsuleRegistry::all`: `self.map.iter()`, the list of (uri, capsule)
pairs currently stored. -/
def CapsuleRegistry.all (r : CapsuleRegistry) : List (String × Capsule) :=
  r.map

/-- The `TemplateEngine` trait's provided `context_for` method: builds the
render context `{ name, description, uri, method (debug string), data }`
from the capsule's current fields. -/
def context_for (capsule : Capsule) : Json :=
  Json.obj
    [ ("name", Json.str capsule.name)
    , ("description", Json.str capsule.description)
    , ("uri", Json.str capsule.uri)
    , ("method", Json.str capsule.method.debugStr)
    , ("data", capsule.data) ]

/-- The operations of a `dyn TemplateEngine` that request dispatch uses:
only `context_for`.  `TeraEngine` does not override the provided method,
so the one concrete engine carries the default. -/
structure TemplateEngineOps where
  contextFor : Capsule → Json

/-- The engine the application installs: `TeraEngine`, which inherits the
trait's default `context_for`. -/
def teraEngineOps : TemplateEngineOps := { contextFor := context_for }

/-- Rust struct `AppState` carrying `registry` and `engine`, shared with every handler. -/
structure AppState where
  registry : CapsuleRegistry
  engine : TemplateEngineOps

/-- The value returned by every Rocket handler:
`Template::render(name, context)` records the template name and the
context it is rendered with. -/
structure RTemplate where
  tname : String
  context : Json

/-- Rust `std::path::Path::display()` on the `PathBuf` Rocket captures from
`<path..>` segments: the segments joined by `/`. -/
def pathDisplay : List String → String
  | [] => ""
  | [s] => s
  | s :: rest => s ++ "/" ++ pathDisplay rest

/-- GET handler `catch_all` (`#[get("/<path..>", rank = 1)]`):
normalise to `"/" ++ display`, look up the registry, render the capsule
via the engine on a hit, else render "404" with `context! { path }`. -/
def catch_all (path : List String) (state : AppState) : RTemplate × AppState :=
  let p := "/" ++ pathDisplay path
  match state.registry.get p with
  | some capsule =>
      ({ tname := capsule.template, context := state.engine.contextFor capsule },
       state)
  | none =>
      ({ tname := "404", context := Json.obj [("path", Json.str p)] }, state)

/-- POST handler `handle_post` (`#[post("/<path..>", data = "<data>")]`):
normalise the path, look up the registry; on a hit clone the capsule,
overwrite its `data` field with `{ "body": data }`, build the context on
the clone and render the capsule's template; on a miss render "404" with
`context! { path: path_str }`.  The handlers hold the state behind a
shared reference; the state component of the result records what they
leave behind. -/
def handle_post (path : List String) (data : String) (state : AppState) :
    RTemplate × AppState :=
  let path_str := "/" ++ pathDisplay path
  match state.registry.get path_str with
  | some capsule =>
      let capsule' := { capsule with data := Json.obj [("body", Json.str data)] }
      ({ tname := capsule'.template, context := state.engine.contextFor capsule' },
       state)
  | none =>
      ({ tname := "404", context := Json.obj [("path", Json.str path_str)] },
       state)

/-- Fallback route `not_found` (`#[get("/<_..>", rank = 2)]`): renders
"404" with the empty context. -/
def not_found : RTemplate :=
  { tname := "404", context := Json.obj [] }

/-- An incoming HTTP request as the default catcher sees it: a status
code plus the request line data the catcher ignores. -/
structure HttpRequest where
  verb : String
  pathSegs : List String

/-- Catcher `default_catcher` (`#[rocket::catch(default)]`): both the status and
the request are ignored; renders "404" with the empty context. -/
def default_catcher (_status : Nat) (_req : HttpRequest) : RTemplate :=
  { tname := "404", context := Json.obj [] }

/-- The error type of `anyhow::Result` as `load_all` produces it: a glob
error from `globwalk::glob` or a compile error from
`Tera::add_template_files`. -/
inductive LoadError where
  | globError (pattern : String)
  | compileError (file : String)
deriving DecidableEq, Repr

/-- One template source file discovered by the glob walk. -/
structure TemplateFile where
  path : String
  source : String
deriving DecidableEq, Repr

/-- The compiled template set held inside a `Tera` instance, identified
by the files successfully registered into it. -/
abbrev TeraSet := List TemplateFile

/-- Fresh `Tera::default()`: an empty compiled set. -/
def teraDefault : TeraSet := []

/-- Method `Tera::add_template_files` on the fresh local instance: registers each
discovered file in turn, failing with the compile error of the first file
the (engine-supplied) compiler rejects. -/
def addTemplateFiles (compiles : TemplateFile → Bool) (t : TeraSet) :
    List TemplateFile → Except LoadError TeraSet
  | [] => .ok t
  | f :: fs =>
      if compiles f then addTemplateFiles compiles (t ++ [f]) fs
      else .error (.compileError f.path)

/-- Method `TeraEngine::load_all`: build a *fresh* `Tera::default()`, feed it the
glob-walk result (which may itself fail), and only on full success swap it
into `self.tera`; the state component of the result is the compiled set
held after the call.  The filesystem walk enters as the `globResult`
argument. -/
def TeraEngine.load_all (compiles : TemplateFile → Bool)
    (globResult : Except LoadError (List TemplateFile)) (st : TeraSet) :
    Except LoadError Unit × TeraSet :=
  match globResult with
  | .error e => (.error e, st)
  | .ok files =>
      match addTemplateFiles compiles teraDefault files with
      | .error e => (.error e, st)
      | .ok tera => (.ok (), tera)

/-- The steps `RocketTeraServer::serve` performs, in order, as its async
block executes. -/
inductive ServeStep where
  | loadAll
  | buildState
  | attachTemplates
  | mountRoutes
  | registerCatcher
  | igniteLaunch
deriving DecidableEq, Repr

/-- Method `RocketTeraServer::serve`: runs `engine.load_all()?` first; an error
aborts with that error before any further step, otherwise the Rocket
instance is built, routes mounted, the catcher registered, and the server
launched.  Returns the outcome, the trace of steps performed, and the
template set the engine holds afterwards. -/
def RocketTeraServer.serve (compiles : TemplateFile → Bool)
    (globResult : Except LoadError (List TemplateFile)) (st : TeraSet) :
    Except LoadError Unit × List ServeStep × TeraSet :=
  match TeraEngine.load_all compiles globResult st with
  | (.error e, st') => (.error e, [.loadAll], st')
  | (.ok _, st') =>
      (.ok (), [.loadAll, .buildState, .attachTemplates, .mountRoutes,
                .registerCatcher, .igniteLaunch], st')

/-! ### Supporting lemmas -/

theorem pathDisplay_middle (x b : String) (bs : List String) :
    pathDisplay ((x ++ "/" ++ b) :: bs) = x ++ "/" ++ pathDisplay (b :: bs) := by
  cases bs with
  | nil => rfl
  | cons c cs => simp [pathDisplay, String.append_assoc]

theorem intercalate_go_eq (as : List String) (acc : String) :
    String.intercalate.go acc "/" as = pathDisplay (acc :: as) := by
  induction as generalizing acc with
  | nil => rfl
  | cons b bs ih =>
      rw [String.intercalate.go, ih (acc ++ "/" ++ b), pathDisplay_middle]
      rfl

theorem pathDisplay_eq_intercalate (p : List String) :
    pathDisplay p = String.intercalate "/" p := by
  cases p with
  | nil => rfl
  | cons a as => rw [String.intercalate, intercalate_go_eq]

theorem get_insertPair (m : List (String × Capsule)) (k u : String) (v : Capsule) :
    CapsuleRegistry.get ⟨insertPair k v m⟩ u =
      if k = u then some v else CapsuleRegistry.get ⟨m⟩ u := by
  induction m with
  | nil =>
      by_cases h : k = u <;> simp [CapsuleRegistry.get, insertPair, h]
  | cons hd tl ih =>
      obtain ⟨j, w⟩ := hd
      by_cases hj : j = k
      · subst hj
        by_cases hu : j = u <;>
          simp [CapsuleRegistry.get, insertPair, List.find?_cons, hu]
      · by_cases hu : j = u
        · subst hu
          have hk : ¬k = j := fun h => hj h.symm
          simp [CapsuleRegistry.get, insertPair, hj, List.find?_cons, hk]
        · simpa [CapsuleRegistry.get, insertPair, hj, List.find?_cons, hu]
            using ih

theorem get_add (r : CapsuleRegistry) (c : Capsule) (u : String) :
    (r.add c).get u = if c.uri = u then some c else r.get u := by
  simpa [CapsuleRegistry.add] using get_insertPair r.map c.uri u c

theorem get_foldl_add (cs : List Capsule) (r : CapsuleRegistry) (u : String) :
    (cs.foldl CapsuleRegistry.add r).get u =
      (cs.reverse.find? (fun c => c.uri = u)).or (r.get u) := by
  induction cs generalizing r with
  | nil => simp
  | cons c cs ih =>
      rw [List.foldl_cons, ih, List.reverse_cons, List.find?_append, get_add]
      by_cases hfind : (cs.reverse.find? (fun c => decide (c.uri = u))).isSome
      · obtain ⟨d, hd⟩ := Option.isSome_iff_exists.mp hfind
        simp [hd]
      · rw [Option.not_isSome_iff_eq_none] at hfind
        by_cases hu : c.uri = u <;> simp [hfind, hu]

theorem keys_insertPair (m : List (String × Capsule)) (k : String) (v : Capsule) :
    (insertPair k v m).map Prod.fst =
      if k ∈ m.map Prod.fst then m.map Prod.fst else m.map Prod.fst ++ [k] := by
  induction m with
  | nil => simp [insertPair]
  | cons hd tl ih =>
      obtain ⟨j, w⟩ := hd
      by_cases hj : j = k
      · subst hj
        simp [insertPair]
      · have hk : ¬k = j := fun h => hj h.symm
        by_cases hm : k ∈ tl.map Prod.fst <;>
          simp [insertPair, hj, hk, hm, ih]

theorem mem_keys_insertPair (m : List (String × Capsule)) (k u : String)
    (v : Capsule) :
    u ∈ (insertPair k v m).map Prod.fst ↔ u = k ∨ u ∈ m.map Prod.fst := by
  rw [keys_insertPair]
  by_cases hm : k ∈ m.map Prod.fst
  · simp only [hm, if_true]
    constructor
    · exact Or.inr
    · rintro (rfl | h)
      · exact hm
      · exact h
  · simp [hm, or_comm]

theorem nodup_keys_insertPair (m : List (String × Capsule)) (k : String)
    (v : Capsule) (h : (m.map Prod.fst).Nodup) :
    ((insertPair k v m).map Prod.fst).Nodup := by
  rw [keys_insertPair]
  by_cases hm : k ∈ m.map Prod.fst
  · simpa [hm] using h
  · simp only [hm, if_false]
    rw [List.nodup_append]
    refine ⟨h, List.nodup_singleton k, ?_⟩
    intro a ha hb
    rw [List.mem_singleton] at hb
    subst hb
    exact hm ha

theorem nodup_keys_foldl_add (cs : List Capsule) (r : CapsuleRegistry)
    (h : (r.map.map Prod.fst).Nodup) :
    ((cs.foldl CapsuleRegistry.add r).map.map Prod.fst).Nodup := by
  induction cs generalizing r with
  | nil => exact h
  | cons c cs ih =>
      exact ih (r.add c) (nodup_keys_insertPair r.map c.uri c h)

theorem mem_keys_foldl_add (cs : List Capsule) (r : CapsuleRegistry)
    (u : String) :
    u ∈ (cs.foldl CapsuleRegistry.add r).map.map Prod.fst ↔
      u ∈ r.map.map Prod.fst ∨ ∃ c ∈ cs, c.uri = u := by
  induction cs generalizing r with
  | nil => simp
  | cons c cs ih =>
      rw [List.foldl_cons, ih]
      have : u ∈ (r.add c).map.map Prod.fst ↔ u = c.uri ∨ u ∈ r.map.map Prod.fst :=
        mem_keys_insertPair r.map c.uri u c
      rw [this]
      constructor
      · rintro ((rfl | h) | ⟨d, hd, hdu⟩)
        · exact Or.inr ⟨c, List.mem_cons_self c cs, rfl⟩
        · exact Or.inl h
        · exact Or.inr ⟨d, List.mem_cons_of_mem c hd, hdu⟩
      · rintro (h | ⟨d, hd, hdu⟩)
        · exact Or.inl (Or.inr h)
        · rcases List.mem_cons.mp hd with rfl | hd
          · exact Or.inl (Or.inl hdu.symm)
          · exact Or.inr ⟨d, hd, hdu⟩

theorem mem_insertPair (m : List (String × Capsule)) (k : String)
    (v q : String × Capsule) (h : q ∈ insertPair k v.2 m) :
    q = (k, v.2) ∨ q ∈ m := by
  induction m with
  | nil => simpa [insertPair] using h
  | cons hd tl ih =>
      obtain ⟨j, w⟩ := hd
      by_cases hj : j = k
      · subst hj
        rcases List.mem_cons.mp (by simpa [insertPair] using h) with rfl | hq
        · exact Or.inl rfl
        · exact Or.inr (List.mem_cons_of_mem _ hq)
      · rcases List.mem_cons.mp (by simpa [insertPair, hj] using h) with rfl | hq
        · exact Or.inr (List.mem_cons_self _ _)
        · rcases ih hq with h1 | h1
          · exact Or.inl h1
          · exact Or.inr (List.mem_cons_of_mem _ h1)

theorem keyMatch_add (r : CapsuleRegistry) (c : Capsule)
    (h : ∀ p ∈ r.all, p.1 = p.2.uri) :
    ∀ p ∈ (r.add c).all, p.1 = p.2.uri := by
  intro p hp
  rcases mem_insertPair r.map c.uri (c.uri, c) p hp with rfl | hm
  · rfl
  · exact h p hm

theorem keyMatch_get (r : CapsuleRegistry) (h : ∀ p ∈ r.all, p.1 = p.2.uri)
    (u : String) (c : Capsule) (hc : r.get u = some c) : c.uri = u := by
  unfold CapsuleRegistry.get at hc
  obtain ⟨q, hq, rfl⟩ := Option.map_eq_some'.mp hc
  have hmem := List.mem_of_find?_eq_some hq
  have hpred := List.find?_some hq
  have h1 : q.1 = u := by simpa using hpred
  have h2 : q.1 = q.2.uri := h q hmem
  rw [← h2, h1]

theorem load_all_error (compiles : TemplateFile → Bool)
    (gr : Except LoadError (List TemplateFile)) (st : TeraSet) (e : LoadError)
    (h : (TeraEngine.load_all compiles gr st).1 = .error e) :
    TeraEngine.load_all compiles gr st = (.error e, st) := by
  cases gr with
  | error e2 =>
      simp only [TeraEngine.load_all, Except.error.injEq] at h
      subst h
      rfl
  | ok files =>
      cases hadd : addTemplateFiles compiles teraDefault files with
      | error e2 =>
          simp only [TeraEngine.load_all, hadd, Except.error.injEq] at h
          subst h
          simp [TeraEngine.load_all, hadd]
      | ok t =>
          simp [TeraEngine.load_all, hadd] at h

theorem load_all_ok_replaces (compiles : TemplateFile → Bool)
    (gr : Except LoadError (List TemplateFile)) (st st2 : TeraSet)
    (h : (TeraEngine.load_all compiles gr st).1 = .ok ()) :
    (TeraEngine.load_all compiles gr st2).1 = .ok ()
    ∧ (TeraEngine.load_all compiles gr st2).2
        = (TeraEngine.load_all compiles gr st).2 := by
  cases gr with
  | error e2 => simp [TeraEngine.load_all] at h
  | ok files =>
      cases hadd : addTemplateFiles compiles teraDefault files with
      | error e2 => simp [TeraEngine.load_all, hadd] at h
      | ok t => simp [TeraEngine.load_all, hadd]

/-! ### The claims -/

/-- C1: for every capsule registered at a URI, a POST dispatched to a path
normalising to that URI renders the capsule's own template with a context
whose `data` field is exactly the object `{ "body": <raw body> }` — the
capsule's original `data` is entirely discarded, never merged — while the
other context fields come from the capsule's stored fields. -/
theorem post_body_override (p : List String) (body : String)
    (r : CapsuleRegistry) (c : Capsule)
    (h : r.get ("/" ++ pathDisplay p) = some c) :
    (handle_post p body { registry := r, engine := teraEngineOps }).1 =
      { tname := c.template
      , context := Json.obj
          [ ("name", Json.str c.name)
          , ("description", Json.str c.description)
          , ("uri", Json.str c.uri)
          , ("method", Json.str c.method.debugStr)
          , ("data", Json.obj [("body", Json.str body)]) ] } := by
  simp [handle_post, h, teraEngineOps, context_for]

/-- Witness for C1: a capsule at "/echo" with initial data `{"x": 1}`;
posting body "hello" renders its template with data `{"body": "hello"}`. -/
theorem post_body_override_check :
    (handle_post ["echo"] "hello"
      { registry := CapsuleRegistry.default.add
          { template := "echo_tpl", name := "Echo", description := "an echo",
            uri := "/echo", method := Method.POST,
            data := Json.obj [("x", Json.num 1)] }
      , engine := teraEngineOps }).1 =
      { tname := "echo_tpl"
      , context := Json.obj
          [ ("name", Json.str "Echo")
          , ("description", Json.str "an echo")
          , ("uri", Json.str "/echo")
          , ("method", Json.str "POST")
          , ("data", Json.obj [("body", Json.str "hello")]) ] } :=
  post_body_override ["echo"] "hello"
    (CapsuleRegistry.default.add
      { template := "echo_tpl", name := "Echo", description := "an echo",
        uri := "/echo", method := Method.POST,
        data := Json.obj [("x", Json.num 1)] })
    { template := "echo_tpl", name := "Echo", description := "an echo",
      uri := "/echo", method := Method.POST,
      data := Json.obj [("x", Json.num 1)] }
    rfl

/-- C3: both dispatchers use exactly the string formed by one leading
slash plus the request segments joined with "/" as the registry lookup
key: the embedded display form agrees with the standard join, and any two
states agreeing on `get` at that exact key (and on the engine) produce
identical GET and POST responses. -/
theorem dispatch_canonical_key (p : List String) (d : String) (s t : AppState)
    (heng : s.engine = t.engine)
    (hget : s.registry.get ("/" ++ String.intercalate "/" p)
          = t.registry.get ("/" ++ String.intercalate "/" p)) :
    pathDisplay p = String.intercalate "/" p
    ∧ (catch_all p s).1 = (catch_all p t).1
    ∧ (handle_post p d s).1 = (handle_post p d t).1 := by
  have hpd := pathDisplay_eq_intercalate p
  refine ⟨hpd, ?_, ?_⟩
  · simp only [catch_all, hpd, hget, heng]
    cases t.registry.get ("/" ++ String.intercalate "/" p) <;> rfl
  · simp only [handle_post, hpd, hget, heng]
    cases t.registry.get ("/" ++ String.intercalate "/" p) <;> rfl

/-- Witness for C3: a registry holding an unrelated capsule at "/other"
and the empty registry agree at lookup key "/blog/post-1", so the
dispatch results coincide. -/
theorem dispatch_canonical_key_check :
    pathDisplay ["blog", "post-1"] = String.intercalate "/" ["blog", "post-1"]
    ∧ (catch_all ["blog", "post-1"]
        { registry := CapsuleRegistry.default.add
            { template := "t", name := "n", description := "d",
              uri := "/other", method := Method.GET, data := Json.obj [] }
        , engine := teraEngineOps }).1
      = (catch_all ["blog", "post-1"]
        { registry := CapsuleRegistry.default, engine := teraEngineOps }).1
    ∧ (handle_post ["blog", "post-1"] "b"
        { registry := CapsuleRegistry.default.add
            { template := "t", name := "n", description := "d",
              uri := "/other", method := Method.GET, data := Json.obj [] }
        , engine := teraEngineOps }).1
      = (handle_post ["blog", "post-1"] "b"
        { registry := CapsuleRegistry.default, engine := teraEngineOps }).1 :=
  dispatch_canonical_key ["blog", "post-1"] "b" _ _ rfl rfl

/-- C4: for every sequence of `add` calls on a registry built from empty,
the final registry has exactly one entry per distinct uri (keys are
pairwise distinct and a key is present iff some added capsule carried that
uri), and `get u` returns the capsule from the last `add` whose uri is
`u`. -/
theorem registry_last_add_wins (cs : List Capsule) (u : String) :
    (cs.foldl CapsuleRegistry.add CapsuleRegistry.default).get u
        = cs.reverse.find? (fun c => c.uri = u)
    ∧ (((cs.foldl CapsuleRegistry.add CapsuleRegistry.default).all.map
          Prod.fst).Nodup)
    ∧ (u ∈ (cs.foldl CapsuleRegistry.add CapsuleRegistry.default).all.map
          Prod.fst ↔ ∃ c ∈ cs, c.uri = u) := by
  refine ⟨?_, ?_, ?_⟩
  · rw [get_foldl_add]
    have hd : CapsuleRegistry.default.get u = none := rfl
    rw [hd, Option.or_none]
  · exact nodup_keys_foldl_add cs CapsuleRegistry.default (by
      simp [CapsuleRegistry.default])
  · simpa [CapsuleRegistry.all, CapsuleRegistry.default] using
      mem_keys_foldl_add cs CapsuleRegistry.default u

/-- C6: the default `context_for` is a pure function of the capsule's
current fields, producing exactly the fields name, description, uri,
method (as a string) and data; recomputing after replacing `data`
reflects the new value. -/
theorem context_for_current_fields (c : Capsule) (d : Json) :
    context_for c = Json.obj
      [ ("name", Json.str c.name)
      , ("description", Json.str c.description)
      , ("uri", Json.str c.uri)
      , ("method", Json.str c.method.debugStr)
      , ("data", c.data) ]
    ∧ context_for { c with data := d } = Json.obj
      [ ("name", Json.str c.name)
      , ("description", Json.str c.description)
      , ("uri", Json.str c.uri)
      , ("method", Json.str c.method.debugStr)
      , ("data", d) ] :=
  ⟨rfl, rfl⟩

/-- C5: when the normalised path is not a key of the registry, `get`
returns absence (`none`, never an error) and both GET and POST dispatch
render the "404" template with a context containing only the attempted
normalised path. -/
theorem miss_fallback (p : List String) (d : String) (s : AppState)
    (h : ("/" ++ pathDisplay p) ∉ s.registry.all.map Prod.fst) :
    s.registry.get ("/" ++ pathDisplay p) = none
    ∧ (catch_all p s).1
        = { tname := "404"
          , context := Json.obj [("path", Json.str ("/" ++ pathDisplay p))] }
    ∧ (handle_post p d s).1
        = { tname := "404"
          , context := Json.obj [("path", Json.str ("/" ++ pathDisplay p))] } := by
  simp only [CapsuleRegistry.all] at h
  have hnone : s.registry.get ("/" ++ pathDisplay p) = none := by
    rcases hfind : s.registry.map.find? (fun q => q.1 = ("/" ++ pathDisplay p))
      with _ | q
    · simp [CapsuleRegistry.get, hfind]
    · exfalso
      have hmem := List.mem_of_find?_eq_some hfind
      have hpred := List.find?_some hfind
      simp only [decide_eq_true_eq] at hpred
      exact h (by rw [← hpred]; exact List.mem_map_of_mem Prod.fst hmem)
  refine ⟨hnone, ?_, ?_⟩
  · simp [catch_all, hnone]
  · simp [handle_post, hnone]

/-- Witness for C5: looking up "/nope" in the empty registry misses, and
both dispatchers render "404" with only the path in context. -/
theorem miss_fallback_check :
    CapsuleRegistry.default.get ("/" ++ pathDisplay ["nope"]) = none
    ∧ (catch_all ["nope"]
        { registry := CapsuleRegistry.default, engine := teraEngineOps }).1
        = { tname := "404"
          , context := Json.obj [("path", Json.str ("/" ++ pathDisplay ["nope"]))] }
    ∧ (handle_post ["nope"] "payload"
        { registry := CapsuleRegistry.default, engine := teraEngineOps }).1
        = { tname := "404"
          , context := Json.obj [("path", Json.str ("/" ++ pathDisplay ["nope"]))] } :=
  miss_fallback ["nope"] "payload"
    { registry := CapsuleRegistry.default, engine := teraEngineOps }
    (by simp [CapsuleRegistry.all, CapsuleRegistry.default])

/-- C2: if `load_all` fails the previously loaded compiled-template set
is left completely unchanged, and if it succeeds the new set fully
replaces the previous one — the successful outcome and resulting set are
independent of whatever was loaded before, so repeated loads never merge
or accumulate. -/
theorem load_all_atomic (compiles : TemplateFile → Bool)
    (gr : Except LoadError (List TemplateFile)) (st : TeraSet) :
    (∀ e, (TeraEngine.load_all compiles gr st).1 = .error e →
        (TeraEngine.load_all compiles gr st).2 = st)
    ∧ ((TeraEngine.load_all compiles gr st).1 = .ok () →
        ∀ st2 : TeraSet,
          (TeraEngine.load_all compiles gr st2).1 = .ok ()
          ∧ (TeraEngine.load_all compiles gr st2).2
              = (TeraEngine.load_all compiles gr st).2) := by
  constructor
  · intro e he
    rw [load_all_error compiles gr st e he]
  · intro h st2
    exact load_all_ok_replaces compiles gr st st2 h

/-- Witness for C2: a template that fails to compile leaves the
previously loaded set untouched. -/
theorem load_all_atomic_check :
    (TeraEngine.load_all (fun _ => false)
        (.ok [{ path := "a.html.tera", source := "broken" }])
        [{ path := "old.html.tera", source := "fine" }]).2
      = [{ path := "old.html.tera", source := "fine" }] :=
  (load_all_atomic (fun _ => false)
      (.ok [{ path := "a.html.tera", source := "broken" }])
      [{ path := "old.html.tera", source := "fine" }]).1
    (.compileError "a.html.tera") rfl

/-- C7: `serve` invokes `load_all` exactly once, before any other serving
step, and if `load_all` fails it returns that error immediately — no
further startup step runs. -/
theorem serve_loads_templates_first (compiles : TemplateFile → Bool)
    (gr : Except LoadError (List TemplateFile)) (st : TeraSet) :
    (RocketTeraServer.serve compiles gr st).2.1.head? = some ServeStep.loadAll
    ∧ (RocketTeraServer.serve compiles gr st).2.1.count ServeStep.loadAll = 1
    ∧ (∀ e, (TeraEngine.load_all compiles gr st).1 = .error e →
        RocketTeraServer.serve compiles gr st
          = (.error e, [ServeStep.loadAll], st)) := by
  cases gr with
  | error e2 =>
      refine ⟨rfl, rfl, ?_⟩
      intro e he
      have h2 : e2 = e := by simpa [TeraEngine.load_all] using he
      subst h2
      rfl
  | ok files =>
      cases hadd : addTemplateFiles compiles teraDefault files with
      | error e2 =>
          have hserve : RocketTeraServer.serve compiles (.ok files) st
              = (.error e2, [ServeStep.loadAll], st) := by
            simp [RocketTeraServer.serve, TeraEngine.load_all, hadd]
          refine ⟨by rw [hserve]; rfl, by rw [hserve]; rfl, ?_⟩
          intro e he
          have h2 : e2 = e := by
            simpa [TeraEngine.load_all, hadd] using he
          subst h2
          exact hserve
      | ok t =>
          have hserve : RocketTeraServer.serve compiles (.ok files) st
              = (.ok (), [ServeStep.loadAll, ServeStep.buildState,
                  ServeStep.attachTemplates, ServeStep.mountRoutes,
                  ServeStep.registerCatcher, ServeStep.igniteLaunch], t) := by
            simp [RocketTeraServer.serve, TeraEngine.load_all, hadd]
          refine ⟨by rw [hserve]; rfl, by rw [hserve]; rfl, ?_⟩
          intro e he
          simp [TeraEngine.load_all, hadd] at he

/-- Witness for C7: a failing glob aborts `serve` with that error, after
only the load step. -/
theorem serve_loads_templates_first_check :
    RocketTeraServer.serve (fun _ => true) (.error (.globError "bad")) []
      = (.error (.globError "bad"), [ServeStep.loadAll], []) :=
  (serve_loads_templates_first (fun _ => true) (.error (.globError "bad"))
      []).2.2 (.globError "bad") rfl

/-- C8: the catch-all fallback route and the default error catcher render
the "404" template with an empty context, identically for every status
and every request — no status-specific detail reaches the user. -/
theorem error_pages_uniform (s1 s2 : Nat) (r1 r2 : HttpRequest) :
    default_catcher s1 r1 = default_catcher s2 r2
    ∧ default_catcher s1 r1 = not_found
    ∧ not_found = { tname := "404", context := Json.obj [] } :=
  ⟨rfl, rfl, rfl⟩

/-- C9: dispatching a GET or POST never mutates the registry or any
stored capsule — the POST data overwrite is applied to a per-request
clone, so the state after either handler is exactly the state before,
and any subsequent lookup returns the original capsule. -/
theorem dispatch_preserves_state (p : List String) (d : String) (s : AppState)
    (u : String) :
    (catch_all p s).2 = s
    ∧ (handle_post p d s).2 = s
    ∧ (handle_post p d s).2.registry.get u = s.registry.get u
    ∧ (catch_all p s).2.registry.get u = s.registry.get u := by
  have h1 : (catch_all p s).2 = s := by
    simp only [catch_all]
    cases s.registry.get ("/" ++ pathDisplay p) <;> rfl
  have h2 : (handle_post p d s).2 = s := by
    simp only [handle_post]
    cases s.registry.get ("/" ++ pathDisplay p) <;> rfl
  exact ⟨h1, h2, by rw [h2], by rw [h1]⟩

/-- C10: the registry maintains the invariant — established by the empty
registry and preserved by every `add` — that each entry's key equals the
uri of the capsule stored under it; hence `get u` only ever returns a
capsule whose uri is `u`, and every pair yielded by `all` satisfies
key = capsule.uri. -/
theorem registry_key_invariant :
    (∀ q ∈ CapsuleRegistry.default.all, q.1 = q.2.uri)
    ∧ (∀ (r : CapsuleRegistry) (c : Capsule),
        (∀ q ∈ r.all, q.1 = q.2.uri) → ∀ q ∈ (r.add c).all, q.1 = q.2.uri)
    ∧ (∀ (r : CapsuleRegistry), (∀ q ∈ r.all, q.1 = q.2.uri) →
        ∀ (u : String) (c : Capsule), r.get u = some c → c.uri = u) := by
  refine ⟨?_, ?_, ?_⟩
  · intro q hq
    simp [CapsuleRegistry.default, CapsuleRegistry.all] at hq
  · exact keyMatch_add
  · exact keyMatch_get

/-- Witness for C10: after adding a capsule with uri "/x" to the empty
registry, `get "/x"` returns it and its uri field is "/x". -/
theorem registry_key_invariant_check :
    (CapsuleRegistry.default.add
      { template := "t", name := "n", description := "d", uri := "/x",
        method := Method.GET, data := Json.obj [] }).get "/x"
      = some { template := "t", name := "n", description := "d", uri := "/x",
               method := Method.GET, data := Json.obj [] }
    ∧ ({ template := "t", name := "n", description := "d", uri := "/x",
         method := Method.GET, data := Json.obj [] } : Capsule).uri = "/x" :=
  ⟨rfl,
    registry_key_invariant.2.2
      (CapsuleRegistry.default.add
        { template := "t", name := "n", description := "d", uri := "/x",
          method := Method.GET, data := Json.obj [] })
      (registry_key_invariant.2.1 CapsuleRegistry.default
        { template := "t", name := "n", description := "d", uri := "/x",
          method := Method.GET, data := Json.obj [] }
        registry_key_invariant.1)
      "/x"
      { template := "t", name := "n", description := "d", uri := "/x",
        method := Method.GET, data := Json.obj [] }
      rfl⟩
